import Mathlib

/-!
Verification of the price_scraper repository's anti-detection core.

The Python source is shallowly embedded: pure computations become Lean
functions; browser/page interaction (Camoufox) is an external capability
and is modelled as explicit data supplied to the embedded functions
(page state, stubbed stage outcomes); randomness (random.randint,
random.uniform, random.gauss) is modelled by passing the drawn sample
as an explicit argument; wall-clock time in the resolver loop is
modelled by accumulating the timing-model delays the loop itself inserts.
Real numbers produced by Python floats are modelled as rationals.
-/

namespace PriceScraper

/-! ## String helpers modelling Python string operations (ASCII casing). -/

/-- Python `str.lower` on a character, restricted to the ASCII range plus
the accented capital appearing in the source's patterns. -/
def pyLowerChar (c : Char) : Char := if c = 'É' then 'é' else c.toLower

/-- Python `str.lower`. -/
def pyLower (s : String) : String := ⟨s.data.map pyLowerChar⟩

/-- `needle` is a prefix of `hay` (character lists). -/
def listPrefixEq : List Char → List Char → Bool
  | [], _ => true
  | _ :: _, [] => false
  | a :: as, b :: bs => a == b && listPrefixEq as bs

/-- Python `needle in hay` substring containment on character lists. -/
def containsSubList (hay needle : List Char) : Bool :=
  if listPrefixEq needle hay then true
  else
    match hay with
    | [] => false
    | _ :: t => containsSubList t needle

/-- Python `needle in hay` on strings. -/
def containsSub (hay needle : String) : Bool :=
  containsSubList hay.data needle.data

/-! ## Timing Model — `datadome_advanced.py` `gaussian_delay` (lines 169-184)
and `datadome.py` `random_delay` (lines 22-31).

The Gaussian draw `random.gauss(mean, std_dev)` is modelled by the
unconstrained sample `g`; the code then clamps it into the bounds.
`random.uniform(a, b)` is `a + (b-a)*u` for a unit sample `u ∈ [0,1]`. -/

/-- `gaussian_delay`: `mean`/`std_dev` feed a Gaussian draw `g`, which is
clamped as `max(min_seconds, min(max_seconds, delay))`.  Returns the
duration slept. -/
def gaussian_delay (min_seconds max_seconds g : ℚ) : ℚ :=
  max min_seconds (min max_seconds g)

/-- `random_delay` (baseline policy): `random.uniform(min_seconds,
max_seconds)` with unit sample `u`.  Returns the duration slept. -/
def random_delay (min_seconds max_seconds u : ℚ) : ℚ :=
  min_seconds + u * (max_seconds - min_seconds)

/-! ## Session Store — `datadome_advanced.py` `save_cookies` (489-507) /
`load_cookies` (509-535).

The filesystem under `session_dir` is modelled as an association list
from file name to stored cookie list (JSON serialisation of the cookie
objects is modelled as the identity).  `save_cookies` opens the file
with mode `w`, i.e. overwrites; `load_cookies` returns `False`
(here `none`) when the file does not exist. -/

/-- One cookie object, as an opaque name/value record. -/
abbrev Cookie := String × String

/-- The on-disk session directory: file name ↦ stored cookie list. -/
abbrev SessionFS := List (String × List Cookie)

/-- The file name `f"{session_name}_cookies.json"`. -/
def cookieFileName (session_name : String) : String :=
  session_name ++ "_cookies.json"

/-- `save_cookies`: write (overwrite) the cookie set under the session's
file name. -/
def save_cookies (fs : SessionFS) (session_name : String)
    (cookies : List Cookie) : SessionFS :=
  (cookieFileName session_name, cookies) ::
    fs.filter (fun e => !(e.1 == cookieFileName session_name))

/-- `load_cookies`: read the session's file; `none` models the
`return False` taken when `cookie_file.exists()` is false. -/
def load_cookies (fs : SessionFS) (session_name : String) :
    Option (List Cookie) :=
  (fs.find? (fun e => e.1 == cookieFileName session_name)).map Prod.snd

/-! ## Motion Generator — `datadome_advanced.py` `bezier_curve` (38-70)
and `_bezier_point` (72-92).

Coordinates are integers; the curve parameter `t = i / steps` is a
rational.  Python's `int(x)` truncates toward zero. -/

/-- Python `int()` on a rational: truncation toward zero. -/
def ratTrunc (q : ℚ) : ℤ := if 0 ≤ q then ⌊q⌋ else ⌈q⌉

/-- One de Casteljau interpolation pass (the `new_points` loop of
`_bezier_point`): pairwise `(1-t)*p[i] + t*p[i+1]`, truncated to int. -/
def deCasteljauStep (t : ℚ) : List (ℤ × ℤ) → List (ℤ × ℤ)
  | p :: q :: rest =>
      (ratTrunc ((1 - t) * p.1 + t * q.1),
       ratTrunc ((1 - t) * p.2 + t * q.2)) :: deCasteljauStep t (q :: rest)
  | _ => []

theorem deCasteljauStep_length (t : ℚ) :
    ∀ l : List (ℤ × ℤ), (deCasteljauStep t l).length = l.length - 1 := by
  intro l
  induction l with
  | nil => rfl
  | cons p rest ih =>
    cases rest with
    | nil => rfl
    | cons q r =>
      simp only [deCasteljauStep, List.length_cons] at ih ⊢
      omega

/-- `_bezier_point`: De Casteljau recursion down to a single point,
made structural (hence executable) with a fuel argument; each step
shortens the point list by one, so any fuel at least `points.length`
makes the zero-fuel arm unreachable.  The empty-list arms are likewise
unreachable in the source (the list always contains at least `start`
and `end`). -/
def bezierPointFuel : ℕ → List (ℤ × ℤ) → ℚ → ℤ × ℤ
  | _, [], _ => (0, 0)
  | _, [p], _ => p
  | 0, p :: _ :: _, _ => p
  | fuel + 1, p :: q :: rest, t =>
      bezierPointFuel fuel (deCasteljauStep t (p :: q :: rest)) t

/-- `_bezier_point` on its actual argument list. -/
def bezier_point (points : List (ℤ × ℤ)) (t : ℚ) : ℤ × ℤ :=
  bezierPointFuel points.length points t

/-- `bezier_curve`: `all_points = [start] + controls + [end]`, sampled at
`t = i / steps` for `i = 0 .. steps`.  The random control points and the
random `steps ∈ [20, 40]` are passed explicitly. -/
def bezier_curve (start stop : ℤ × ℤ) (controls : List (ℤ × ℤ))
    (steps : ℕ) : List (ℤ × ℤ) :=
  (List.range (steps + 1)).map
    (fun i : ℕ =>
      bezier_point (start :: (controls ++ [stop])) ((i : ℚ) / (steps : ℚ)))

/-! ## Challenge Detector — `datadome_advanced.py`
`check_datadome_challenge` (334-357) and the four signal checks
(359-420).

The page state observed through the driver is modelled as explicit
data: the URL, a selector-presence oracle (`page.query_selector`
returning an element or not), the body inner text, the result of the
injected script's check for DataDome global objects, and the document
cookie string. -/

/-- The driver-observed page state consumed by the detector. -/
structure Page where
  url : String
  hasSelector : String → Bool
  bodyText : String
  ddGlobals : Bool
  cookieStr : String

/-- URL indicators of `_check_url_indicators`. -/
def url_indicators : List String :=
  ["geo.captcha-delivery.com", "datadome.co", "interstitial"]

/-- `_check_url_indicators`: any indicator occurs in the page URL. -/
def check_url_indicators (p : Page) : Bool :=
  url_indicators.any (fun ind => containsSub p.url ind)

/-- DataDome-specific selectors probed by `_check_dom_indicators`. -/
def dd_selectors : List String :=
  ["iframe[src*=\x27datadome\x27]", "div[id*=\x27datadome\x27]",
   "[class*=\x27dd-\x27]", "script[src*=\x27datadome\x27]"]

/-- Challenge phrases probed by `_check_dom_indicators` (the source
compares them against `body_text.lower()`). -/
def challenge_texts : List String :=
  ["checking your browser", "please wait", "verifying you are human",
   "security check"]

/-- `_check_dom_indicators`: a DataDome selector matches, or a known
challenge phrase occurs in the lower-cased body text. -/
def check_dom_indicators (p : Page) : Bool :=
  dd_selectors.any p.hasSelector ||
    challenge_texts.any (fun t => containsSub (pyLower p.bodyText) t)

/-- `_check_network_indicators`: the source is a stub returning False. -/
def check_network_indicators (_ : Page) : Bool := false

/-- `_check_javascript_indicators`: the injected script reports a
DataDome global object, or `document.cookie` contains "datadome". -/
def check_javascript_indicators (p : Page) : Bool :=
  p.ddGlobals || containsSub p.cookieStr "datadome"

/-- `check_datadome_challenge`: `any` over the four signal checks. -/
def check_datadome_challenge (p : Page) : Bool :=
  [check_url_indicators p, check_dom_indicators p,
   check_network_indicators p, check_javascript_indicators p].any id

/-! ## Challenge Resolver — `datadome_advanced.py`
`handle_datadome_challenge` (422-471).

The loop `while time.time() - start_time < max_wait` is modelled with
an explicit elapsed clock advanced by the one timing-model delay
(`gaussian_delay(2, 4)`) each iteration inserts; the detector's fresh
verdict at the re-check after iteration `k` is the oracle `det k`
(`true` = still detected), and the iteration's Gaussian draw is
`g k`.  The motion/scroll/hover actions interleaved on the counter
modulo 3/4/5 touch only the driver and do not affect the return
value, so they are not part of the loop state. -/

/-- The delay slept in iteration `i`: `gaussian_delay(2, 4)` with draw
`g i`. -/
def delayAt (g : ℕ → ℚ) (i : ℕ) : ℚ := gaussian_delay 2 4 (g i)

theorem delayAt_ge_two (g : ℕ → ℚ) (i : ℕ) : 2 ≤ delayAt g i :=
  le_max_left _ _

/-- Sum of the delays of `n` consecutive iterations starting at
iteration `a`. -/
def sumDelays (g : ℕ → ℚ) (a : ℕ) : ℕ → ℚ
  | 0 => 0
  | n + 1 => delayAt g a + sumDelays g (a + 1) n

theorem sumDelays_nonneg (g : ℕ → ℚ) (a : ℕ) :
    ∀ n, 0 ≤ sumDelays g a n := by
  intro n
  induction n generalizing a with
  | zero => simp [sumDelays]
  | succ n ih =>
    have h2 := delayAt_ge_two g a
    have := ih (a + 1)
    simp only [sumDelays]
    linarith

/-- With a delay of at least 2 seconds inserted, the remaining
wall-clock budget (ceiling, as a natural) strictly shrinks each
iteration entered while time remains. -/
theorem resolveLoop_measure (g : ℕ → ℚ) (w elapsed : ℚ) (i : ℕ)
    (hlt : elapsed < w) :
    (⌈w - (elapsed + delayAt g i)⌉).toNat < (⌈w - elapsed⌉).toNat := by
  have hδ : 2 ≤ delayAt g i := delayAt_ge_two g i
  have h1 : w - (elapsed + delayAt g i) ≤ (w - elapsed) - (2 : ℤ) := by
    push_cast; linarith
  have h2 : ⌈w - (elapsed + delayAt g i)⌉ ≤ ⌈(w - elapsed) - (2 : ℤ)⌉ :=
    Int.ceil_le_ceil h1
  rw [Int.ceil_sub_int] at h2
  have h3 : 0 < ⌈w - elapsed⌉ := Int.ceil_pos.mpr (by linarith)
  omega

/-- The `while` loop of `handle_datadome_challenge`, with counter `k`
(`check_interval`) and accumulated elapsed time.  Returns the boolean
result and the elapsed clock at exit. -/
def resolveLoop (det : ℕ → Bool) (g : ℕ → ℚ) (max_wait : ℚ)
    (elapsed : ℚ) (k : ℕ) : Bool × ℚ :=
  if hlt : elapsed < max_wait then
    if det (k + 1) = false then (true, elapsed + delayAt g (k + 1))
    else resolveLoop det g max_wait (elapsed + delayAt g (k + 1)) (k + 1)
  else (false, elapsed)
  termination_by (⌈max_wait - elapsed⌉).toNat
  decreasing_by exact resolveLoop_measure g max_wait elapsed (k + 1) hlt

/-- `handle_datadome_challenge`: run the loop from `check_interval = 0`
and a fresh `start_time`; the source returns only the boolean. -/
def handle_datadome_challenge (det : ℕ → Bool) (g : ℕ → ℚ)
    (max_wait : ℚ) : Bool :=
  (resolveLoop det g max_wait 0 0).1

/-! ## Offer Parser — `parser.py`.

BeautifulSoup (the HTML library) is an external collaborator: a parsed
document (`Soup`) is modelled as the list of candidate card elements
that `_find_train_cards` yields, and a card element exposes the two
operations the extractors use on it: `get_text()` (the `text` field)
and `find(class_=re.compile(pat))` followed by `get_text(strip=True)`
(the `findClass` oracle, keyed by the pattern string the source
passes).  The regular-expression searches the extractors run on those
texts are embedded as explicit leftmost-match scanners. -/

/-- A candidate train-card element, as seen by the extractors. -/
structure Card where
  text : String
  findClass : String → Option String

/-- Python `\s*`: drop leading whitespace. -/
def dropSpaces (cs : List Char) : List Char := cs.dropWhile Char.isWhitespace

/-- Python `str.strip()`. -/
def stripChars (cs : List Char) : List Char :=
  ((cs.dropWhile Char.isWhitespace).reverse.dropWhile Char.isWhitespace).reverse

/-- Match a literal character sequence, returning the remainder. -/
def litAt : List Char → List Char → Option (List Char)
  | [], rest => some rest
  | _ :: _, [] => none
  | a :: as, b :: bs => if a == b then litAt as bs else none

/-- Case-insensitive literal match (`re.IGNORECASE`). -/
def litAtCI : List Char → List Char → Option (List Char)
  | [], rest => some rest
  | _ :: _, [] => none
  | a :: as, b :: bs =>
    if pyLowerChar a == pyLowerChar b then litAtCI as bs else none

/-- Exactly `n` digits (`\d{n}`), returning them and the remainder. -/
def takeExactDigits : ℕ → List Char → Option (List Char × List Char)
  | 0, cs => some ([], cs)
  | _ + 1, [] => none
  | n + 1, c :: cs =>
    if c.isDigit then
      (takeExactDigits n cs).map (fun dr => (c :: dr.1, dr.2))
    else none

/-- Value of a digit string (`int` of the group). -/
def digitsToNat (ds : List Char) : ℕ :=
  ds.foldl (fun n c => 10 * n + (c.toNat - 48)) 0

/-- The number token `\d+[,.]?\d*` of the price patterns: greedy
digits, an optional comma/point, greedy digits; returns the matched
group and the remainder. -/
def numTokAt (cs : List Char) : Option (List Char × List Char) :=
  let (d1, r1) := List.span Char.isDigit cs
  if d1.isEmpty then none
  else
    match r1 with
    | c :: r2 =>
      if c = ',' || c = '.' then
        let (d2, r3) := List.span Char.isDigit r2
        some (d1 ++ c :: d2, r3)
      else some (d1, r1)
    | [] => some (d1, [])

/-- Leftmost match of a positional matcher over a text (`re.search`). -/
def searchGroup (f : List Char → Option (List Char)) :
    List Char → Option (List Char)
  | [] => f []
  | c :: t =>
    match f (c :: t) with
    | some grp => some grp
    | none => searchGroup f t

/-- Python `float()` on a price group after `replace(',', '.')`:
`digits` or `digits.digits*`. -/
def pyFloat (grp : List Char) : Option ℚ :=
  let g2 := grp.map (fun c => if c = ',' then '.' else c)
  let (d1, r) := List.span Char.isDigit g2
  if d1.isEmpty then none
  else
    match r with
    | [] => some ((digitsToNat d1 : ℚ))
    | c :: d2 =>
      if c = '.' && (List.span Char.isDigit d2).2.isEmpty then
        some ((digitsToNat d1 : ℚ) + (digitsToNat d2 : ℚ) / ((10 : ℚ) ^ d2.length))
      else none

/-- Price pattern 1: `(\d+[,.]?\d*)\s*€`. -/
def priceP1At (cs : List Char) : Option (List Char) :=
  match numTokAt cs with
  | none => none
  | some (grp, r) =>
    match dropSpaces r with
    | c :: _ => if c = '€' then some grp else none
    | [] => none

/-- Price pattern 2: `€\s*(\d+[,.]?\d*)`. -/
def priceP2At (cs : List Char) : Option (List Char) :=
  match cs with
  | c :: r =>
    if c = '€' then
      match numTokAt (dropSpaces r) with
      | some (grp, _) => some grp
      | none => none
    else none
  | [] => none

/-- Price pattern 3: `EUR\s*(\d+[,.]?\d*)`. -/
def priceP3At (cs : List Char) : Option (List Char) :=
  match litAt "EUR".data cs with
  | some r =>
    match numTokAt (dropSpaces r) with
    | some (grp, _) => some grp
    | none => none
  | none => none

/-- Price pattern 4: `(\d+[,.]?\d*)\s*EUR`. -/
def priceP4At (cs : List Char) : Option (List Char) :=
  match numTokAt cs with
  | none => none
  | some (grp, r) =>
    match litAt "EUR".data (dropSpaces r) with
    | some _ => some grp
    | none => none

/-- `_extract_price` (189-225): take the text of the first element with
a class matching `price|tarif|amount` (else the whole element text) and
try the four price patterns in order, converting the first match that
parses as a float. -/
def extract_price (c : Card) : Option ℚ :=
  let text :=
    match c.findClass "price|tarif|amount" with
    | some t => t
    | none => c.text
  let cs := text.data
  match (searchGroup priceP1At cs).bind pyFloat with
  | some v => some v
  | none =>
    match (searchGroup priceP2At cs).bind pyFloat with
    | some v => some v
    | none =>
      match (searchGroup priceP3At cs).bind pyFloat with
      | some v => some v
      | none => (searchGroup priceP4At cs).bind pyFloat

/-- Python `\w` (ASCII). -/
def isWordChar (c : Char) : Bool := c.isAlphanum || c = '_'

/-- `\d{len1}[h:]\d{2}\b` at a position, for `len1 ∈ {1, 2}`. -/
def timeTryAt (len1 : ℕ) (cs : List Char) : Option (List Char) :=
  match takeExactDigits len1 cs with
  | none => none
  | some (d1, r1) =>
    match r1 with
    | [] => none
    | sep :: r2 =>
      if sep = 'h' || sep = ':' then
        match takeExactDigits 2 r2 with
        | none => none
        | some (d2, r3) =>
          match r3 with
          | [] => some (d1 ++ sep :: d2)
          | c :: _ => if isWordChar c then none else some (d1 ++ sep :: d2)
      else none

/-- `\d{1,2}[h:]\d{2}\b` at a position (greedy: two digits first). -/
def timeAt (cs : List Char) : Option (List Char) :=
  match timeTryAt 2 cs with
  | some grp => some grp
  | none => timeTryAt 1 cs

/-- Leftmost match of `\b(\d{1,2}[h:]\d{2})\b`, tracking the previous
character for the leading word boundary. -/
def searchTime : Option Char → List Char → Option (List Char)
  | _, [] => none
  | prev, c :: t =>
    let boundary :=
      match prev with
      | none => true
      | some pc => !(isWordChar pc)
    match (if boundary then timeAt (c :: t) else none) with
    | some grp => some grp
    | none => searchTime (some c) t

/-- The `.replace('h', ':')` applied to a matched time group. -/
def hToColon (grp : List Char) : String :=
  ⟨grp.map (fun c => if c = 'h' then ':' else c)⟩

/-- The keyword loop of `_extract_time`: for the first keyword whose
class-matched element's text contains a time pattern, return it;
otherwise continue with the remaining keywords. -/
def extractTimeFromKeywords (c : Card) : List String → Option String
  | [] => none
  | k :: ks =>
    match c.findClass k with
    | some t =>
      match searchTime none t.data with
      | some grp => some (hToColon grp)
      | none => extractTimeFromKeywords c ks
    | none => extractTimeFromKeywords c ks

/-- `_extract_time` (132-160): keyword-scoped search, then a fallback
search over the whole element text. -/
def extract_time (c : Card) (keywords : List String) : Option String :=
  match extractTimeFromKeywords c keywords with
  | some r => some r
  | none =>
    match searchTime none c.text.data with
    | some grp => some (hToColon grp)
    | none => none

/-- Duration pattern 1: `(\d+h\s*\d*\s*(?:min)?)`, case-insensitive. -/
def durP1At (cs : List Char) : Option (List Char) :=
  let (d1, r1) := List.span Char.isDigit cs
  if d1.isEmpty then none
  else
    match r1 with
    | [] => none
    | hc :: r2 =>
      if pyLowerChar hc = 'h' then
        let (sp1, r3) := List.span Char.isWhitespace r2
        let (d2, r4) := List.span Char.isDigit r3
        let (sp2, r5) := List.span Char.isWhitespace r4
        let base := d1 ++ hc :: (sp1 ++ d2 ++ sp2)
        match r5 with
        | m :: i :: n :: _ =>
          if pyLowerChar m = 'm' && pyLowerChar i = 'i' && pyLowerChar n = 'n' then
            some (base ++ [m, i, n])
          else some base
        | _ => some base
      else none

/-- Duration pattern 2: `(\d+\s*h\s*\d*)`, case-insensitive. -/
def durP2At (cs : List Char) : Option (List Char) :=
  let (d1, r1) := List.span Char.isDigit cs
  if d1.isEmpty then none
  else
    let (sp1, r2) := List.span Char.isWhitespace r1
    match r2 with
    | [] => none
    | hc :: r3 =>
      if pyLowerChar hc = 'h' then
        let (sp2, r4) := List.span Char.isWhitespace r3
        let (d2, _) := List.span Char.isDigit r4
        some (d1 ++ sp1 ++ hc :: (sp2 ++ d2))
      else none

/-- Duration pattern 3: `Durée[:\s]*(\d+h\d+)`, case-insensitive;
the captured group is the `\d+h\d+` part. -/
def durP3At (cs : List Char) : Option (List Char) :=
  match litAtCI "Durée".data cs with
  | none => none
  | some r1 =>
    let r2 := r1.dropWhile (fun c => c = ':' || c.isWhitespace)
    let (d1, r3) := List.span Char.isDigit r2
    if d1.isEmpty then none
    else
      match r3 with
      | hc :: r4 =>
        if pyLowerChar hc = 'h' then
          let (d2, _) := List.span Char.isDigit r4
          if d2.isEmpty then none else some (d1 ++ hc :: d2)
        else none
      | [] => none

/-- `_extract_duration` (162-187): the three duration patterns in
order, group stripped. -/
def extract_duration (c : Card) : Option String :=
  let cs := c.text.data
  match searchGroup durP1At cs with
  | some grp => some (⟨stripChars grp⟩ : String)
  | none =>
    match searchGroup durP2At cs with
    | some grp => some (⟨stripChars grp⟩ : String)
    | none =>
      match searchGroup durP3At cs with
      | some grp => some (⟨stripChars grp⟩ : String)
      | none => none

/-- The candidate train types of `_extract_train_type`. -/
def train_types : List String :=
  ["TGV", "INOUI", "OUIGO", "TER", "Intercités", "INTERCITES"]

/-- `_extract_train_type` (227-245): first listed type whose lowercase
form occurs in the lowercase element text. -/
def extract_train_type (c : Card) : Option String :=
  train_types.find? (fun tt => containsSub (pyLower c.text) (pyLower tt))

/-- The `\s*(\d{4,5})` tail of the train-number pattern (greedy: five
digits first). -/
def numTail (cs : List Char) : Option (List Char) :=
  let r := dropSpaces cs
  match takeExactDigits 5 r with
  | some (d, _) => some d
  | none =>
    match takeExactDigits 4 r with
    | some (d, _) => some d
    | none => none

/-- `(?:TGV|TER|INOUI)?\s*(\d{4,5})` at a position, with alternation
backtracking down to the empty prefix. -/
def trainNumAt (cs : List Char) : Option (List Char) :=
  match (match litAt "TGV".data cs with
         | some r => numTail r
         | none => none) with
  | some d => some d
  | none =>
    match (match litAt "TER".data cs with
           | some r => numTail r
           | none => none) with
    | some d => some d
    | none =>
      match (match litAt "INOUI".data cs with
             | some r => numTail r
             | none => none) with
      | some d => some d
      | none => numTail cs

/-- `_extract_train_number` (247-264). -/
def extract_train_number (c : Card) : Option String :=
  (searchGroup trainNumAt c.text.data).map (fun d => (⟨d⟩ : String))

/-- `(\d+)\s*<literal>` at a position, for the connection patterns. -/
def connPatAt (lit : List Char) (cs : List Char) : Option (List Char) :=
  let (d, r) := List.span Char.isDigit cs
  if d.isEmpty then none
  else
    match litAt lit (dropSpaces r) with
    | some _ => some d
    | none => none

/-- `_extract_connections` (266-294): 0 for direct trains, else the
first matched connection count, else 0. -/
def extract_connections (c : Card) : ℕ :=
  let text := pyLower c.text
  if containsSub text "direct" || containsSub text "sans correspondance" then 0
  else
    match searchGroup (connPatAt "correspondance".data) text.data with
    | some d => digitsToNat d
    | none =>
      match searchGroup (connPatAt "changement".data) text.data with
      | some d => digitsToNat d
      | none =>
        match searchGroup (connPatAt "transfer".data) text.data with
        | some d => digitsToNat d
        | none => 0

/-- The French/English fare-class table of `_extract_fare_class`. -/
def fare_classes : List (String × String) :=
  [("1ère classe", "1st class"), ("1ere classe", "1st class"),
   ("2ème classe", "2nd class"), ("2eme classe", "2nd class"),
   ("première classe", "1st class"), ("premiere classe", "1st class"),
   ("seconde classe", "2nd class")]

/-- `_extract_fare_class` (296-322). -/
def extract_fare_class (c : Card) : Option String :=
  (fare_classes.find? (fun fc => containsSub (pyLower c.text) fc.1)).map Prod.snd

/-- The record a parsed card yields (the Python `info` dict); every
field other than the price may be absent. -/
structure TrainInfo where
  departure_time : Option String
  arrival_time : Option String
  duration : Option String
  price : Option ℚ
  train_type : Option String
  train_number : Option String
  connections : ℕ
  fare_class : Option String
deriving DecidableEq

/-- `_parse_train_card` (84-130): populate every field, but return
`None` (dropping the card) when the price guard `if price:` fails —
under Python truthiness that is both when `_extract_price` returned
`None` and when it returned the falsy float `0.0`. -/
def parse_train_card (c : Card) : Option TrainInfo :=
  match extract_price c with
  | none => none
  | some p =>
    if p = 0 then none
    else
      some { departure_time := extract_time c ["departure", "depart", "start"],
             arrival_time := extract_time c ["arrival", "arrivee", "arrive", "end"],
             duration := extract_duration c,
             price := some p,
             train_type := extract_train_type c,
             train_number := extract_train_number c,
             connections := extract_connections c,
             fare_class := extract_fare_class c }

/-- A parsed HTML document: the candidate card elements that
`_find_train_cards`'s selector fallback chain yields (the CSS-selector
machinery itself belongs to the external BeautifulSoup library). -/
structure Soup where
  cards : List Card

/-- `_find_train_cards` (49-82), at the library boundary. -/
def find_train_cards (soup : Soup) : List Card := soup.cards

/-- `parse_prices` (20-47): parse every candidate card, keeping the
successfully parsed ones. -/
def parse_prices (soup : Soup) : List TrainInfo :=
  (find_train_cards soup).filterMap parse_train_card

/-! ## Scrape Orchestrator — `scraper.py` `SNCFScraper.scrape` (338-403).

The browser driver is an external capability, so a scrape run is
modelled against stubbed stage outcomes: whether browser/page creation
throws, the boolean results of `navigate_to_homepage` and
`search_route` (both catch their own exceptions and return a bool),
and the offer list `extract_prices` yields (it catches its own
exceptions and returns a list).  `save_results` catches its own I/O
errors.  The model additionally records, as ghost state, which pipeline
stages were invoked and the messages passed to `self.log` — `log`
prints its message only when `debug` is set (`scraper.py` 52-61). -/

/-- The pipeline stages after browser start-up. -/
inductive Stage
  | homepage
  | search
  | extract
  | persist
deriving DecidableEq

/-- Stubbed outcomes of the driver-backed stages for one invocation. -/
structure ScrapeEnv where
  browserInit : Except String Unit
  navOk : Bool
  searchOk : Bool
  extracted : List TrainInfo

/-- The outcome of one `scrape` call: the returned list, the stages
that were invoked, and everything `self.log` printed. -/
structure ScrapeResult where
  results : List TrainInfo
  invoked : List Stage
  log : List String
deriving DecidableEq

/-- `SNCFScraper.log`: append the message only when `debug` is set. -/
def logMsg (debug : Bool) (msgs : List String) (m : String) : List String :=
  if debug then msgs ++ [m] else msgs

/-- `SNCFScraper.scrape`: the try-block around browser start-up and the
four stages, with the early `return []` after a failed homepage load or
a failed route search, and the catch-all `except` returning `[]`. -/
def scrape (debug : Bool) (env : ScrapeEnv) : ScrapeResult :=
  let log0 := logMsg debug [] "Starting SNCF price scraper"
  match env.browserInit with
  | .error e =>
    { results := [],
      invoked := [],
      log := logMsg debug log0 ("Fatal error during scraping: " ++ e) }
  | .ok _ =>
    if env.navOk = false then
      { results := [],
        invoked := [Stage.homepage],
        log := logMsg debug log0 "Failed to load homepage, aborting..." }
    else if env.searchOk = false then
      { results := [],
        invoked := [Stage.homepage, Stage.search],
        log := logMsg debug log0 "Failed to search route, aborting..." }
    else
      { results := env.extracted,
        invoked := [Stage.homepage, Stage.search, Stage.extract, Stage.persist],
        log := logMsg debug log0 "Scraping completed!" }

/-- The human-readable failure messages `scrape` can log. -/
def isFailureMessage (m : String) : Bool :=
  m = "Failed to load homepage, aborting..." ||
  m = "Failed to search route, aborting..." ||
  containsSub m "Fatal error during scraping: "

/-! ## Claims -/

/-- C5: Timing Model bound invariant — for every pair of bounds with
min ≤ max, the delay sampled (and slept) by both the uniform policy
(`random_delay`, unit draw `u ∈ [0,1]`) and the Gaussian policy
(`gaussian_delay`, arbitrary Gaussian draw `g`, clamped) lies within
[min, max] inclusive. -/
theorem C5_timing_bounds (mn mx g u : ℚ) (hle : mn ≤ mx)
    (hu0 : 0 ≤ u) (hu1 : u ≤ 1) :
    mn ≤ gaussian_delay mn mx g ∧ gaussian_delay mn mx g ≤ mx ∧
    mn ≤ random_delay mn mx u ∧ random_delay mn mx u ≤ mx := by
  refine ⟨le_max_left _ _, max_le hle (min_le_left _ _), ?_, ?_⟩
  · unfold random_delay; nlinarith
  · unfold random_delay; nlinarith

/-- Witness for C5 at bounds [1, 3], Gaussian draw 10, unit draw 1/2. -/
theorem C5_timing_bounds_witness :
    ((1 : ℚ) ≤ 3 ∧ (0 : ℚ) ≤ 1/2 ∧ (1/2 : ℚ) ≤ 1) ∧
    (1 ≤ gaussian_delay 1 3 10 ∧ gaussian_delay 1 3 10 ≤ 3 ∧
     1 ≤ random_delay 1 3 (1/2) ∧ random_delay 1 3 (1/2) ≤ 3) :=
  ⟨⟨by norm_num, by norm_num, by norm_num⟩,
   C5_timing_bounds 1 3 10 (1/2) (by norm_num) (by norm_num) (by norm_num)⟩

/-- C6: Session round-trip — saving a cookie set under a session name
and loading the same name returns the same set (overwriting any prior
record), and loading a session name with no stored file returns
not-found (`none`), never an error. -/
theorem C6_session_roundtrip (fs fs2 : SessionFS) (name : String)
    (cookies : List Cookie)
    (hnew : ∀ e ∈ fs2, e.1 ≠ cookieFileName name) :
    load_cookies (save_cookies fs name cookies) name = some cookies ∧
    load_cookies fs2 name = none := by
  constructor
  · simp [load_cookies, save_cookies, List.find?]
  · have : fs2.find? (fun e => e.1 == cookieFileName name) = none := by
      rw [List.find?_eq_none]
      intro e he
      simpa using hnew e he
    simp [load_cookies, this]

/-- Witness for C6: a fresh store, session name "default". -/
theorem C6_session_roundtrip_witness :
    (∀ e ∈ ([] : SessionFS), e.1 ≠ cookieFileName "default") ∧
    (load_cookies (save_cookies [] "default" [("datadome", "tok")]) "default" =
        some [("datadome", "tok")] ∧
     load_cookies ([] : SessionFS) "default" = none) :=
  ⟨by simp, C6_session_roundtrip [] [] "default" [("datadome", "tok")] (by simp)⟩

/-- C3: the Challenge Detector is a pure OR of its four signal checks —
detected iff some check fires, and not detected exactly when all four
return false. -/
theorem C3_detector_pure_or (p : Page) :
    (check_datadome_challenge p = true ↔
      (check_url_indicators p = true ∨ check_dom_indicators p = true ∨
       check_network_indicators p = true ∨
       check_javascript_indicators p = true)) ∧
    (check_datadome_challenge p = false ↔
      (check_url_indicators p = false ∧ check_dom_indicators p = false ∧
       check_network_indicators p = false ∧
       check_javascript_indicators p = false)) := by
  unfold check_datadome_challenge
  cases hu : check_url_indicators p <;>
    cases hd : check_dom_indicators p <;>
      cases hn : check_network_indicators p <;>
        cases hj : check_javascript_indicators p <;> simp

/-- Witness for C3: a page with no firing signal is not detected. -/
theorem C3_detector_pure_or_witness :
    check_datadome_challenge
      { url := "https://www.sncf-connect.com",
        hasSelector := fun _ => false,
        bodyText := "welcome",
        ddGlobals := false,
        cookieStr := "" } = false :=
  (C3_detector_pure_or _).2.mpr ⟨by decide, by decide, rfl, by decide⟩

/-- C1: Pipeline short-circuit — if homepage navigation reports
failure, `scrape` returns an empty result list and never invokes the
route-search, extraction or persistence stages; if route search fails,
extraction and persistence never run. -/
theorem C1_pipeline_short_circuit (debug : Bool) (env : ScrapeEnv) :
    (env.navOk = false →
      (scrape debug env).results = [] ∧
      Stage.search ∉ (scrape debug env).invoked ∧
      Stage.extract ∉ (scrape debug env).invoked ∧
      Stage.persist ∉ (scrape debug env).invoked) ∧
    (env.searchOk = false →
      (scrape debug env).results = [] ∧
      Stage.extract ∉ (scrape debug env).invoked ∧
      Stage.persist ∉ (scrape debug env).invoked) := by
  obtain ⟨bi, nav, srch, ext⟩ := env
  cases bi <;> cases nav <;> cases srch <;>
    simp [scrape]

/-- Witness for C1: a stubbed driver whose homepage navigation fails. -/
theorem C1_pipeline_short_circuit_witness :
    ((⟨Except.ok (), false, true, []⟩ : ScrapeEnv).navOk = false) ∧
    ((scrape false ⟨Except.ok (), false, true, []⟩).results = [] ∧
     Stage.search ∉ (scrape false ⟨Except.ok (), false, true, []⟩).invoked ∧
     Stage.extract ∉ (scrape false ⟨Except.ok (), false, true, []⟩).invoked ∧
     Stage.persist ∉ (scrape false ⟨Except.ok (), false, true, []⟩).invoked) :=
  ⟨rfl, (C1_pipeline_short_circuit false ⟨Except.ok (), false, true, []⟩).1 rfl⟩

/-- C9 counterexample: with debug logging off (the default), a scrape
whose homepage load fails returns an empty list but logs no message at
all — no human-readable reason string reaches the caller, refuting the
claim as stated. -/
theorem C9_counterexample :
    (scrape false ⟨Except.ok (), false, true, []⟩).results = [] ∧
    (scrape false ⟨Except.ok (), false, true, []⟩).invoked = [Stage.homepage] ∧
    (scrape false ⟨Except.ok (), false, true, []⟩).log = [] := by
  decide

/-- Helper for C9: a string is a substring of itself followed by any
suffix (prefix case of Python `in`). -/
theorem listPrefixEq_self_append :
    ∀ l r : List Char, listPrefixEq l (l ++ r) = true := by
  intro l
  induction l with
  | nil => intro r; rfl
  | cons a as ih =>
    intro r
    simp [listPrefixEq, ih]

theorem containsSub_self_append (pre suf : String) :
    containsSub (pre ++ suf) pre = true := by
  rw [containsSub, String.data_append, containsSubList.eq_def,
    listPrefixEq_self_append]
  rfl

/-- C9 (amended): no exception escapes `scrape` — every internal
failure (browser start-up error, failed homepage load, failed route
search) makes the call return normally with an empty result list — and
a human-readable failure reason is logged when, and only when, debug
logging is enabled. -/
theorem C9_failure_reporting (debug : Bool) (env : ScrapeEnv)
    (hfail : (∃ e, env.browserInit = Except.error e) ∨
      env.navOk = false ∨ env.searchOk = false) :
    (scrape debug env).results = [] ∧
    (debug = true →
      ∃ m ∈ (scrape debug env).log, isFailureMessage m = true) ∧
    (debug = false → (scrape debug env).log = []) := by
  obtain ⟨bi, nav, srch, ext⟩ := env
  cases bi with
  | error e =>
    cases debug <;>
      simp_all [scrape, logMsg, isFailureMessage, containsSub_self_append]
  | ok u =>
    rcases hfail with ⟨e, he⟩ | hnav | hsrch
    · exact absurd he (by simp)
    · simp only at hnav
      subst hnav
      cases debug <;> simp [scrape, logMsg, isFailureMessage]
    · simp only at hsrch
      subst hsrch
      cases nav <;> cases debug <;>
        simp [scrape, logMsg, isFailureMessage]

/-- Witness for C9 (amended): browser start-up throws, debug enabled. -/
theorem C9_failure_reporting_witness :
    ((∃ e, (⟨Except.error "boom", true, true, []⟩ : ScrapeEnv).browserInit =
        Except.error e) ∨
      (⟨Except.error "boom", true, true, []⟩ : ScrapeEnv).navOk = false ∨
      (⟨Except.error "boom", true, true, []⟩ : ScrapeEnv).searchOk = false) ∧
    ((scrape true ⟨Except.error "boom", true, true, []⟩).results = [] ∧
     (true = true →
       ∃ m ∈ (scrape true ⟨Except.error "boom", true, true, []⟩).log,
         isFailureMessage m = true) ∧
     (true = false →
       (scrape true ⟨Except.error "boom", true, true, []⟩).log = [])) :=
  ⟨Or.inl ⟨"boom", rfl⟩,
   C9_failure_reporting true ⟨Except.error "boom", true, true, []⟩
     (Or.inl ⟨"boom", rfl⟩)⟩

/-! ### Motion-path lemmas (C4, C10) -/

theorem ratTrunc_intCast (n : ℤ) : ratTrunc (n : ℚ) = n := by
  unfold ratTrunc
  split <;> simp

theorem deCasteljauStep_zero :
    ∀ l : List (ℤ × ℤ), deCasteljauStep 0 l = l.dropLast := by
  intro l
  induction l with
  | nil => rfl
  | cons p rest ih =>
    cases rest with
    | nil => rfl
    | cons q r =>
      simp only [deCasteljauStep] at ih ⊢
      rw [ih]
      have e1 : (1 - (0 : ℚ)) * (p.1 : ℚ) + 0 * (q.1 : ℚ) = (p.1 : ℚ) := by ring
      have e2 : (1 - (0 : ℚ)) * (p.2 : ℚ) + 0 * (q.2 : ℚ) = (p.2 : ℚ) := by ring
      rw [e1, e2, ratTrunc_intCast, ratTrunc_intCast, List.dropLast_cons₂]

theorem deCasteljauStep_one :
    ∀ l : List (ℤ × ℤ), deCasteljauStep 1 l = l.tail := by
  intro l
  induction l with
  | nil => rfl
  | cons p rest ih =>
    cases rest with
    | nil => rfl
    | cons q r =>
      simp only [deCasteljauStep] at ih ⊢
      rw [ih]
      have e1 : (1 - (1 : ℚ)) * (p.1 : ℚ) + 1 * (q.1 : ℚ) = (q.1 : ℚ) := by ring
      have e2 : (1 - (1 : ℚ)) * (p.2 : ℚ) + 1 * (q.2 : ℚ) = (q.2 : ℚ) := by ring
      rw [e1, e2, ratTrunc_intCast, ratTrunc_intCast]
      rfl

theorem bezierPointFuel_zero :
    ∀ (fuel : ℕ) (l : List (ℤ × ℤ)) (p : ℤ × ℤ), l.length ≤ fuel →
      bezierPointFuel fuel (p :: l) 0 = p := by
  intro fuel
  induction fuel with
  | zero =>
    intro l p hl
    have hnil : l = [] := List.length_eq_zero.mp (Nat.le_zero.mp hl)
    subst hnil
    rfl
  | succ fuel ih =>
    intro l p hl
    cases l with
    | nil => rfl
    | cons q rest =>
      show bezierPointFuel fuel (deCasteljauStep 0 (p :: q :: rest)) 0 = p
      rw [deCasteljauStep_zero, List.dropLast_cons₂]
      apply ih
      simp only [List.length_cons] at hl
      simp only [List.length_dropLast, List.length_cons]
      omega

theorem bezier_point_zero (l : List (ℤ × ℤ)) (p : ℤ × ℤ) :
    bezier_point (p :: l) 0 = p :=
  bezierPointFuel_zero (p :: l).length l p (by simp)

theorem bezierPointFuel_one :
    ∀ (fuel : ℕ) (l : List (ℤ × ℤ)) (p : ℤ × ℤ), l.length ≤ fuel →
      bezierPointFuel fuel (p :: l) 1 =
        (p :: l).getLast (List.cons_ne_nil p l) := by
  intro fuel
  induction fuel with
  | zero =>
    intro l p hl
    have hnil : l = [] := List.length_eq_zero.mp (Nat.le_zero.mp hl)
    subst hnil
    simp [bezierPointFuel]
  | succ fuel ih =>
    intro l p hl
    cases l with
    | nil => simp [bezierPointFuel]
    | cons q rest =>
      show bezierPointFuel fuel (deCasteljauStep 1 (p :: q :: rest)) 1 = _
      rw [deCasteljauStep_one]
      show bezierPointFuel fuel (q :: rest) 1 = _
      rw [ih rest q (by simp only [List.length_cons] at hl; omega)]
      exact (List.getLast_cons (List.cons_ne_nil q rest)).symm

theorem bezier_point_one (l : List (ℤ × ℤ)) (p : ℤ × ℤ) :
    bezier_point (p :: l) 1 = (p :: l).getLast (List.cons_ne_nil p l) :=
  bezierPointFuel_one (p :: l).length l p (by simp)

/-- C4: Motion path shape — for every integer start/end, complexity in
1..3 control points, and step count drawn in [20, 40], the generated
path starts exactly at `start`, ends exactly at `stop`, and has
`steps + 1` samples, hence between 21 and 41 points inclusive. -/
theorem C4_motion_path_shape (start stop : ℤ × ℤ) (controls : List (ℤ × ℤ))
    (steps : ℕ) (_hc1 : 1 ≤ controls.length) (_hc3 : controls.length ≤ 3)
    (hs1 : 20 ≤ steps) (hs2 : steps ≤ 40) :
    (bezier_curve start stop controls steps).head? = some start ∧
    (bezier_curve start stop controls steps).getLast? = some stop ∧
    (bezier_curve start stop controls steps).length = steps + 1 ∧
    21 ≤ (bezier_curve start stop controls steps).length ∧
    (bezier_curve start stop controls steps).length ≤ 41 := by
  have hlen : (bezier_curve start stop controls steps).length = steps + 1 := by
    simp [bezier_curve]
  refine ⟨?_, ?_, hlen, by omega, by omega⟩
  · rw [bezier_curve, List.head?_map, List.range_succ_eq_map]
    simp only [List.head?_cons, Option.map_some']
    rw [Nat.cast_zero, zero_div, bezier_point_zero]
  · rw [bezier_curve, List.getLast?_map, List.range_succ, List.getLast?_concat]
    simp only [Option.map_some']
    have hz : ((steps : ℚ)) ≠ 0 := Nat.cast_ne_zero.mpr (by omega)
    rw [div_self hz, bezier_point_one]
    have hcast : start :: (controls ++ [stop]) = (start :: controls) ++ [stop] := rfl
    congr 1
    rw [show (start :: (controls ++ [stop])).getLast (List.cons_ne_nil _ _) =
        ((start :: controls) ++ [stop]).getLast (by simp) from rfl]
    rw [List.getLast_append' _ _ (by simp)]
    simp

/-- Witness for C4: path from (0,0) to (100,200), one control point,
21 steps drawn as 20. -/
theorem C4_motion_path_shape_witness :
    (1 ≤ ([((5 : ℤ), (5 : ℤ))] : List (ℤ × ℤ)).length ∧
     ([((5 : ℤ), (5 : ℤ))] : List (ℤ × ℤ)).length ≤ 3 ∧
     20 ≤ 20 ∧ 20 ≤ 40) ∧
    ((bezier_curve (0, 0) (100, 200) [(5, 5)] 20).head? = some (0, 0) ∧
     (bezier_curve (0, 0) (100, 200) [(5, 5)] 20).getLast? = some (100, 200) ∧
     (bezier_curve (0, 0) (100, 200) [(5, 5)] 20).length = 20 + 1 ∧
     21 ≤ (bezier_curve (0, 0) (100, 200) [(5, 5)] 20).length ∧
     (bezier_curve (0, 0) (100, 200) [(5, 5)] 20).length ≤ 41) :=
  ⟨⟨by decide, by decide, by decide, by decide⟩,
   C4_motion_path_shape (0, 0) (100, 200) [(5, 5)] 20
     (by decide) (by decide) (by decide) (by decide)⟩

/-- The axis-aligned bounding box of the two endpoints, the region the
source samples its random control points from
(`random.randint(min(..), max(..))`, both bounds inclusive). -/
def inBox (s e p : ℤ × ℤ) : Prop :=
  min s.1 e.1 ≤ p.1 ∧ p.1 ≤ max s.1 e.1 ∧
  min s.2 e.2 ≤ p.2 ∧ p.2 ≤ max s.2 e.2

instance inBox.decidable (s e p : ℤ × ℤ) : Decidable (inBox s e p) := by
  unfold inBox
  infer_instance

theorem ratTrunc_bounds (lo hi : ℤ) (q : ℚ) (h1 : (lo : ℚ) ≤ q)
    (h2 : q ≤ (hi : ℚ)) : lo ≤ ratTrunc q ∧ ratTrunc q ≤ hi := by
  unfold ratTrunc
  split
  · refine ⟨Int.le_floor.mpr h1, ?_⟩
    have := Int.floor_le_floor h2
    rwa [Int.floor_intCast] at this
  · refine ⟨?_, Int.ceil_le.mpr h2⟩
    have := Int.ceil_le_ceil h1
    rwa [Int.ceil_intCast] at this

theorem interp_bounds (lo hi a b : ℤ) (t : ℚ) (ht0 : 0 ≤ t) (ht1 : t ≤ 1)
    (ha1 : lo ≤ a) (ha2 : a ≤ hi) (hb1 : lo ≤ b) (hb2 : b ≤ hi) :
    (lo : ℚ) ≤ (1 - t) * (a : ℚ) + t * (b : ℚ) ∧
    (1 - t) * (a : ℚ) + t * (b : ℚ) ≤ (hi : ℚ) := by
  have ha1' : (lo : ℚ) ≤ (a : ℚ) := by exact_mod_cast ha1
  have ha2' : (a : ℚ) ≤ (hi : ℚ) := by exact_mod_cast ha2
  have hb1' : (lo : ℚ) ≤ (b : ℚ) := by exact_mod_cast hb1
  have hb2' : (b : ℚ) ≤ (hi : ℚ) := by exact_mod_cast hb2
  constructor <;> nlinarith

theorem deCasteljauStep_inBox (s e : ℤ × ℤ) (t : ℚ) (ht0 : 0 ≤ t)
    (ht1 : t ≤ 1) :
    ∀ l : List (ℤ × ℤ), (∀ x ∈ l, inBox s e x) →
      ∀ y ∈ deCasteljauStep t l, inBox s e y := by
  intro l
  induction l with
  | nil => intro _ y hy; simp [deCasteljauStep] at hy
  | cons p rest ih =>
    intro hall y hy
    cases rest with
    | nil => simp [deCasteljauStep] at hy
    | cons q r =>
      simp only [deCasteljauStep, List.mem_cons] at hy
      rcases hy with rfl | hy
      · obtain ⟨hp1, hp2, hp3, hp4⟩ := hall p (by simp)
        obtain ⟨hq1, hq2, hq3, hq4⟩ := hall q (by simp)
        have hx := interp_bounds _ _ _ _ t ht0 ht1 hp1 hp2 hq1 hq2
        have hxT := ratTrunc_bounds _ _ _ hx.1 hx.2
        have hy' := interp_bounds _ _ _ _ t ht0 ht1 hp3 hp4 hq3 hq4
        have hyT := ratTrunc_bounds _ _ _ hy'.1 hy'.2
        exact ⟨hxT.1, hxT.2, hyT.1, hyT.2⟩
      · exact ih (fun x hx => hall x (by simp [hx])) y hy

theorem bezierPointFuel_inBox (s e : ℤ × ℤ) (t : ℚ) (ht0 : 0 ≤ t)
    (ht1 : t ≤ 1) :
    ∀ (fuel : ℕ) (l : List (ℤ × ℤ)), l.length ≤ fuel + 1 → l ≠ [] →
      (∀ x ∈ l, inBox s e x) → inBox s e (bezierPointFuel fuel l t) := by
  intro fuel
  induction fuel with
  | zero =>
    intro l hl hne hall
    cases l with
    | nil => exact absurd rfl hne
    | cons p rest =>
      cases rest with
      | nil => exact hall p (by simp)
      | cons q r =>
        simp only [List.length_cons] at hl
        omega
  | succ fuel ih =>
    intro l hl hne hall
    cases l with
    | nil => exact absurd rfl hne
    | cons p rest =>
      cases rest with
      | nil => exact hall p (by simp)
      | cons q r =>
        show inBox s e (bezierPointFuel fuel (deCasteljauStep t (p :: q :: r)) t)
        apply ih
        · rw [deCasteljauStep_length]
          simp only [List.length_cons] at hl ⊢
          omega
        · simp [deCasteljauStep]
        · exact deCasteljauStep_inBox s e t ht0 ht1 _ hall

theorem bezier_point_inBox (s e : ℤ × ℤ) (t : ℚ) (ht0 : 0 ≤ t) (ht1 : t ≤ 1)
    (l : List (ℤ × ℤ)) (hne : l ≠ []) (hall : ∀ x ∈ l, inBox s e x) :
    inBox s e (bezier_point l t) :=
  bezierPointFuel_inBox s e t ht0 ht1 l.length l (by omega) hne hall

/-- C10: bounding-box invariant — with the control points inside the
axis-aligned bounding box of start and stop (where the source samples
them), every sample of the generated motion path lies within that box:
de Casteljau interpolation with integer truncation stays inside it. -/
theorem C10_bounding_box (start stop : ℤ × ℤ) (controls : List (ℤ × ℤ))
    (steps : ℕ) (hc : ∀ c ∈ controls, inBox start stop c) :
    ∀ p ∈ bezier_curve start stop controls steps, inBox start stop p := by
  intro p hp
  rw [bezier_curve, List.mem_map] at hp
  obtain ⟨i, hi, rfl⟩ := hp
  rw [List.mem_range] at hi
  have ht0 : 0 ≤ (i : ℚ) / (steps : ℚ) := by positivity
  have ht1 : (i : ℚ) / (steps : ℚ) ≤ 1 := by
    rcases Nat.eq_zero_or_pos steps with h0 | hpos
    · subst h0; simp
    · have hsp : (0 : ℚ) < (steps : ℚ) := by exact_mod_cast hpos
      rw [div_le_one hsp]
      exact_mod_cast Nat.lt_succ_iff.mp hi
  apply bezier_point_inBox start stop _ ht0 ht1 _ (by simp)
  intro x hx
  simp only [List.mem_cons, List.mem_append, List.mem_singleton,
    List.not_mem_nil, or_false] at hx
  rcases hx with rfl | hx | rfl
  · exact ⟨min_le_left _ _, le_max_left _ _, min_le_left _ _, le_max_left _ _⟩
  · exact hc x hx
  · exact ⟨min_le_right _ _, le_max_right _ _, min_le_right _ _,
      le_max_right _ _⟩

/-- Witness for C10: one control point inside the box of (0,0)-(10,10);
the path's `t = 0` sample (0,0) lies in the box. -/
theorem C10_bounding_box_witness :
    (∀ c ∈ [((3 : ℤ), (4 : ℤ))], inBox (0, 0) (10, 10) c) ∧
    inBox (0, 0) (10, 10) (0, 0) :=
  ⟨by decide,
   C10_bounding_box (0, 0) (10, 10) [(3, 4)] 1 (by decide) (0, 0)
     (by
       rw [bezier_curve]
       refine List.mem_map.mpr ⟨0, by simp, ?_⟩
       rw [Nat.cast_zero, zero_div, bezier_point_zero])⟩

/-! ### Resolver-loop lemmas (C2) -/

theorem resolveLoop_unfold (det : ℕ → Bool) (g : ℕ → ℚ) (w elapsed : ℚ)
    (k : ℕ) :
    resolveLoop det g w elapsed k =
      if elapsed < w then
        if det (k + 1) = false then (true, elapsed + delayAt g (k + 1))
        else resolveLoop det g w (elapsed + delayAt g (k + 1)) (k + 1)
      else (false, elapsed) := by
  rw [resolveLoop]
  simp

theorem resolveLoop_never_clear (det : ℕ → Bool) (g : ℕ → ℚ) (w : ℚ)
    (hdet : ∀ i, det i = true) :
    ∀ (n : ℕ) (elapsed : ℚ) (k : ℕ), (⌈w - elapsed⌉).toNat ≤ n →
      (resolveLoop det g w elapsed k).1 = false ∧
      w ≤ (resolveLoop det g w elapsed k).2 := by
  intro n
  induction n with
  | zero =>
    intro elapsed k hm
    have hge : ¬ elapsed < w := by
      intro hlt
      have h0 : 0 < ⌈w - elapsed⌉ := Int.ceil_pos.mpr (by linarith)
      omega
    rw [resolveLoop_unfold, if_neg hge]
    exact ⟨rfl, le_of_not_lt hge⟩
  | succ n ih =>
    intro elapsed k hm
    by_cases hlt : elapsed < w
    · rw [resolveLoop_unfold, if_pos hlt, hdet (k + 1),
        if_neg (by simp : ¬ (true = false))]
      apply ih
      have := resolveLoop_measure g w elapsed (k + 1) hlt
      omega
    · rw [resolveLoop_unfold, if_neg hlt]
      exact ⟨rfl, le_of_not_lt hlt⟩

theorem resolveLoop_true_exists (det : ℕ → Bool) (g : ℕ → ℚ) (w : ℚ) :
    ∀ (n : ℕ) (elapsed : ℚ) (k : ℕ), (⌈w - elapsed⌉).toNat ≤ n →
      (resolveLoop det g w elapsed k).1 = true →
      ∃ m, 1 ≤ m ∧ det (k + m) = false ∧
        (∀ j, 1 ≤ j → j < m → det (k + j) = true) ∧
        elapsed + sumDelays g (k + 1) (m - 1) < w := by
  intro n
  induction n with
  | zero =>
    intro elapsed k hm htrue
    have hge : ¬ elapsed < w := by
      intro hlt
      have h0 : 0 < ⌈w - elapsed⌉ := Int.ceil_pos.mpr (by linarith)
      omega
    rw [resolveLoop_unfold, if_neg hge] at htrue
    exact absurd htrue (by simp)
  | succ n ih =>
    intro elapsed k hm htrue
    by_cases hlt : elapsed < w
    · rw [resolveLoop_unfold, if_pos hlt] at htrue
      by_cases hd : det (k + 1) = false
      · refine ⟨1, le_rfl, hd, by omega, ?_⟩
        simpa [sumDelays] using hlt
      · rw [if_neg hd] at htrue
        obtain ⟨m', hm1, hmdet, hmearlier, hmsum⟩ :=
          ih (elapsed + delayAt g (k + 1)) (k + 1)
            (by have := resolveLoop_measure g w elapsed (k + 1) hlt; omega)
            htrue
        obtain ⟨m'', rfl⟩ : ∃ m'', m' = m'' + 1 := ⟨m' - 1, by omega⟩
        refine ⟨m'' + 2, by omega, ?_, ?_, ?_⟩
        · have he : k + (m'' + 2) = (k + 1) + (m'' + 1) := by omega
          rw [he]
          exact hmdet
        · intro j h1 h2
          rcases Nat.eq_or_lt_of_le h1 with h1e | hj2
          · have hjk : k + j = k + 1 := by omega
            rw [hjk]
            revert hd
            cases det (k + 1) <;> simp
          · have hjk : k + j = (k + 1) + (j - 1) := by omega
            rw [hjk]
            exact hmearlier (j - 1) (by omega) (by omega)
        · have hms : (m'' + 2) - 1 = m'' + 1 := by omega
          rw [hms]
          simp only [sumDelays]
          have hmsum' : elapsed + delayAt g (k + 1) +
              sumDelays g (k + 1 + 1) (m'' + 1 - 1) < w := hmsum
          simp only [Nat.add_sub_cancel] at hmsum'
          have he : k + 1 + 1 = k + 2 := by omega
          rw [he] at hmsum'
          linarith
    · rw [resolveLoop_unfold, if_neg hlt] at htrue
      exact absurd htrue (by simp)

theorem resolveLoop_first_false (det : ℕ → Bool) (g : ℕ → ℚ) (w : ℚ) :
    ∀ (m : ℕ), 1 ≤ m → ∀ (elapsed : ℚ) (k : ℕ),
      det (k + m) = false →
      (∀ j, 1 ≤ j → j < m → det (k + j) = true) →
      elapsed + sumDelays g (k + 1) (m - 1) < w →
      (resolveLoop det g w elapsed k).1 = true := by
  intro m
  induction m with
  | zero => intro h; omega
  | succ m ih =>
    intro _ elapsed k hdet hearlier hsum
    cases m with
    | zero =>
      simp only [sumDelays, add_zero] at hsum
      rw [resolveLoop_unfold, if_pos hsum, if_pos hdet]
    | succ m'' =>
      simp only [Nat.add_sub_cancel, sumDelays] at hsum
      have hδ : 2 ≤ delayAt g (k + 1) := delayAt_ge_two g (k + 1)
      have hS : 0 ≤ sumDelays g (k + 1 + 1) m'' := sumDelays_nonneg g _ _
      have hlt : elapsed < w := by linarith
      have hd1 : det (k + 1) = true := hearlier 1 le_rfl (by omega)
      rw [resolveLoop_unfold, if_pos hlt, if_neg (by simp [hd1])]
      apply ih (by omega)
      · have he : (k + 1) + (m'' + 1) = k + (m'' + 2) := by omega
        rw [he]
        exact hdet
      · intro j h1 h2
        have he : (k + 1) + j = k + (j + 1) := by omega
        rw [he]
        exact hearlier (j + 1) (by omega) (by omega)
      · have hms : (m'' + 1) - 1 = m'' := by omega
        rw [hms]
        have he : (k + 1) + 1 = k + 1 + 1 := rfl
        linarith

/-- C2: Challenge Resolver success/timeout contract — the loop returns
success only when some re-check of the Detector, in an iteration
entered before the wall-clock timeout elapsed, reports not-detected
(and it succeeds at the first such iteration); with a detector that
never clears, the loop exits with failure at or after the timeout. -/
theorem C2_resolver_contract (det : ℕ → Bool) (g : ℕ → ℚ) (w : ℚ) :
    (handle_datadome_challenge det g w = true →
      ∃ m, 1 ≤ m ∧ det m = false ∧
        (∀ j, 1 ≤ j → j < m → det j = true) ∧ sumDelays g 1 (m - 1) < w) ∧
    ((∀ i, det i = true) →
      handle_datadome_challenge det g w = false ∧
      w ≤ (resolveLoop det g w 0 0).2) ∧
    (∀ m, 1 ≤ m → det m = false →
      (∀ j, 1 ≤ j → j < m → det j = true) →
      sumDelays g 1 (m - 1) < w →
      handle_datadome_challenge det g w = true) := by
  refine ⟨?_, ?_, ?_⟩
  · intro htrue
    rw [handle_datadome_challenge] at htrue
    obtain ⟨m, h1, h2, h3, h4⟩ :=
      resolveLoop_true_exists det g w (⌈w - 0⌉).toNat 0 0 le_rfl htrue
    refine ⟨m, h1, by simpa using h2, ?_, by simpa using h4⟩
    intro j hj1 hj2
    simpa using h3 j hj1 hj2
  · intro hdet
    have h := resolveLoop_never_clear det g w hdet (⌈w - 0⌉).toNat 0 0 le_rfl
    exact ⟨h.1, h.2⟩
  · intro m h1 h2 h3 h4
    rw [handle_datadome_challenge]
    refine resolveLoop_first_false det g w m h1 0 0 (by simpa using h2)
      ?_ (by simpa using h4)
    intro j hj1 hj2
    simpa using h3 j hj1 hj2

/-- The witness detector: still detected at re-checks 1 and 2, clear at
re-check 3. -/
def detWitnessC2 (i : ℕ) : Bool := decide (i < 3)

/-- The witness Gaussian draws: all 0, so each clamped delay is 2s. -/
def gWitnessC2 (_ : ℕ) : ℚ := 0

/-- Witness for C2: the detector clears at iteration 3, total inserted
delay 4s, timeout 10s — the resolver reports success. -/
theorem C2_resolver_contract_witness :
    (1 ≤ 3 ∧ detWitnessC2 3 = false ∧
     (∀ j, 1 ≤ j → j < 3 → detWitnessC2 j = true) ∧
     sumDelays gWitnessC2 1 (3 - 1) < 10) ∧
    handle_datadome_challenge detWitnessC2 gWitnessC2 10 = true := by
  have hj : ∀ j, 1 ≤ j → j < 3 → detWitnessC2 j = true := by
    intro j h1 h2
    simp only [detWitnessC2, decide_eq_true_eq]
    omega
  have hd : ∀ i, delayAt gWitnessC2 i = 2 := by
    intro i
    rw [delayAt, gWitnessC2, gaussian_delay,
      min_eq_right (by norm_num : (0 : ℚ) ≤ 4),
      max_eq_left (by norm_num : (0 : ℚ) ≤ 2)]
  have hsum : sumDelays gWitnessC2 1 (3 - 1) < 10 := by
    simp only [sumDelays, hd]
    norm_num
  exact ⟨⟨by norm_num, by decide, hj, hsum⟩,
    (C2_resolver_contract detWitnessC2 gWitnessC2 10).2.2 3 (by norm_num)
      (by decide) hj hsum⟩

/-- C7 counterexample: a card whose text is "0€" has an extractable
price (0, matched by the first price pattern and converted by
`float`), yet the parser drops it — `if price:` in the source treats
the float 0.0 as falsy — refuting the claim that only cards with no
extractable price produce no record. -/
theorem C7_counterexample :
    extract_price { text := "0€", findClass := fun _ => none } =
      some 0 ∧
    parse_train_card { text := "0€", findClass := fun _ => none } = none := by
  decide

/-- C7 (amended): every record returned by the offer parser has a
non-null extracted price; a candidate card from which no price can be
extracted — or whose extracted price is 0, which the source's
`if price:` guard treats as falsy — produces no record at all, while a
card with a nonzero price is always kept as a record, whatever its
other, possibly absent, fields. -/
theorem C7_price_invariant (soup : Soup) :
    (∀ info ∈ parse_prices soup, info.price.isSome = true) ∧
    (∀ c : Card, extract_price c = none → parse_train_card c = none) ∧
    (∀ c : Card, extract_price c = some 0 → parse_train_card c = none) ∧
    (∀ (c : Card) (p : ℚ), extract_price c = some p → p ≠ 0 →
      ∃ info, parse_train_card c = some info ∧ info.price = some p) := by
  refine ⟨?_, ?_, ?_, ?_⟩
  · intro info hmem
    rw [parse_prices, find_train_cards] at hmem
    obtain ⟨c, _, hc⟩ := List.mem_filterMap.mp hmem
    cases hp : extract_price c with
    | none => simp [parse_train_card, hp] at hc
    | some p =>
      by_cases hz : p = 0
      · simp [parse_train_card, hp, hz] at hc
      · simp only [parse_train_card, hp, if_neg hz, Option.some.injEq] at hc
        rw [← hc]
        rfl
  · intro c h
    simp [parse_train_card, h]
  · intro c h
    simp [parse_train_card, h]
  · intro c p h hz
    exact ⟨{ departure_time := extract_time c ["departure", "depart", "start"],
             arrival_time := extract_time c ["arrival", "arrivee", "arrive", "end"],
             duration := extract_duration c,
             price := some p,
             train_type := extract_train_type c,
             train_number := extract_train_number c,
             connections := extract_connections c,
             fare_class := extract_fare_class c },
           by simp [parse_train_card, h, hz], rfl⟩

/-- Witness for C7: a card advertising "25 EUR" parses into a record
with (nonzero) price 25; the price is matched by the fourth price
pattern. -/
theorem C7_price_invariant_witness :
    (extract_price
       { text := "TGV 6701 direct 25 EUR", findClass := fun _ => none } =
       some ((25 : ℕ) : ℚ) ∧ ((25 : ℕ) : ℚ) ≠ 0) ∧
    (∃ info,
      parse_train_card
        { text := "TGV 6701 direct 25 EUR", findClass := fun _ => none } =
        some info ∧ info.price = some ((25 : ℕ) : ℚ)) :=
  ⟨⟨by decide, by decide⟩,
   (C7_price_invariant ⟨[]⟩).2.2.2
     { text := "TGV 6701 direct 25 EUR", findClass := fun _ => none }
     ((25 : ℕ) : ℚ) (by decide) (by decide)⟩

/-! ### Case-folding lemmas (C8) -/

theorem listPrefixEq_map (f : Char → Char) :
    ∀ needle hay, listPrefixEq needle hay = true →
      listPrefixEq (needle.map f) (hay.map f) = true := by
  intro needle
  induction needle with
  | nil => intro hay _; rfl
  | cons a as ih =>
    intro hay h
    cases hay with
    | nil => simp [listPrefixEq] at h
    | cons b bs =>
      simp only [listPrefixEq, Bool.and_eq_true, beq_iff_eq] at h
      obtain ⟨rfl, hrest⟩ := h
      simp only [List.map_cons, listPrefixEq, Bool.and_eq_true, beq_iff_eq]
      exact ⟨trivial, ih bs hrest⟩

theorem containsSubList_map (f : Char → Char) :
    ∀ hay needle, containsSubList hay needle = true →
      containsSubList (hay.map f) (needle.map f) = true := by
  intro hay
  induction hay with
  | nil =>
    intro needle h
    cases needle with
    | nil => rfl
    | cons a as =>
      rw [containsSubList.eq_def] at h
      simp [listPrefixEq] at h
  | cons c t ih =>
    intro needle h
    rw [containsSubList.eq_def] at h
    by_cases hp : listPrefixEq needle (c :: t) = true
    · have hm := listPrefixEq_map f needle (c :: t) hp
      rw [containsSubList.eq_def, List.map_cons, if_pos ?_]
      simpa using hm
    · rw [if_neg hp] at h
      have h2 : containsSubList (t.map f) (needle.map f) = true := ih needle h
      rw [containsSubList.eq_def, List.map_cons]
      by_cases hq : listPrefixEq (needle.map f) (f c :: t.map f) = true
      · rw [if_pos hq]
      · rw [if_neg hq]
        exact h2

theorem containsSub_pyLower (hay needle : String)
    (h : containsSub hay needle = true) :
    containsSub (pyLower hay) (pyLower needle) = true :=
  containsSubList_map pyLowerChar hay.data needle.data h

/-- C8: Detector phrase matching is case-insensitive — whenever the
page body text contains an occurrence `u` of a known challenge phrase
in any letter casing (`pyLower u` is the phrase), the DOM/text signal
fires and the detector reports detected. -/
theorem C8_phrase_case_insensitive (p : Page) (phrase u : String)
    (hmem : phrase ∈ challenge_texts)
    (hsub : containsSub p.bodyText u = true)
    (hlow : pyLower u = phrase) :
    check_dom_indicators p = true ∧ check_datadome_challenge p = true := by
  have hmap : containsSub (pyLower p.bodyText) (pyLower u) = true :=
    containsSub_pyLower _ _ hsub
  rw [hlow] at hmap
  have hdom : check_dom_indicators p = true := by
    simp only [check_dom_indicators, Bool.or_eq_true, List.any_eq_true]
    exact Or.inr ⟨phrase, hmem, hmap⟩
  refine ⟨hdom, ?_⟩
  simp [check_datadome_challenge, hdom]

/-- The page for the C8 witness: an upper-cased challenge phrase in the
body text, no other signal. -/
def pageWitnessC8 : Page :=
  { url := "https://www.sncf-connect.com/search",
    hasSelector := fun _ => false,
    bodyText := "PLEASE WAIT",
    ddGlobals := false,
    cookieStr := "" }

/-- Witness for C8: "PLEASE WAIT" in the body text fires the DOM signal
and the detector. -/
theorem C8_phrase_case_insensitive_witness :
    ("please wait" ∈ challenge_texts ∧
     containsSub pageWitnessC8.bodyText "PLEASE WAIT" = true ∧
     pyLower "PLEASE WAIT" = "please wait") ∧
    (check_dom_indicators pageWitnessC8 = true ∧
     check_datadome_challenge pageWitnessC8 = true) :=
  ⟨⟨by decide, by decide, by decide⟩,
   C8_phrase_case_insensitive pageWitnessC8 "please wait" "PLEASE WAIT"
     (by decide) (by decide) (by decide)⟩

end PriceScraper
